import Mathlib

/-!
Verification development for the go-builder-relayer-client repository.

The development shallowly embeds the transaction encoding, hashing and
signing subsystem (builder/safe.go, builder/multisend.go, builder/create.go,
builder/derive.go, builder/eip712.go, signer/signer.go, signer/eip712.go,
config/builder.go, client/client.go) into Lean.  Bytes are lists of
naturals below 256; Go errors become an explicit error type; the external
secp256k1 signing primitive (crypto.Sign) is a function parameter, while
keccak-256 (crypto.Keccak256) is implemented executably below.
-/

namespace Relayer

/-- Byte sequences: each element is intended to lie below 256. -/
abbrev Bytes := List Nat

/-! ## Keccak-256 (go-ethereum crypto.Keccak256, legacy Keccak padding) -/

def U64 : Nat := 18446744073709551616

def rotl64 (x n : Nat) : Nat :=
  ((x <<< n) ||| (x >>> (64 - n))) % U64

def keccakRC : List Nat :=
  [1, 0x8082, 0x800000000000808A, 0x8000000080008000]
  ++ [0x808B, 0x80000001, 0x8000000080008081, 0x8000000000008009]
  ++ [0x8A, 0x88, 0x80008009, 0x8000000A]
  ++ [0x8000808B, 0x800000000000008B, 0x8000000000008089, 0x8000000000008003]
  ++ [0x8000000000008002, 0x8000000000000080, 0x800A, 0x800000008000000A]
  ++ [0x8000000080008081, 0x8000000000008080, 0x80000001, 0x8000000080008008]

def keccakRot : List Nat :=
  [0, 1, 62, 28, 27] ++ [36, 44, 6, 55, 20] ++ [3, 10, 43, 25, 39]
  ++ [41, 45, 15, 21, 8] ++ [18, 2, 61, 56, 14]

def keccakTheta (A : List Nat) : List Nat :=
  let C := (List.range 5).map fun x =>
    (A.getD x 0) ^^^ (A.getD (x+5) 0) ^^^ (A.getD (x+10) 0) ^^^
      (A.getD (x+15) 0) ^^^ (A.getD (x+20) 0)
  let D := (List.range 5).map fun x =>
    (C.getD ((x+4) % 5) 0) ^^^ rotl64 (C.getD ((x+1) % 5) 0) 1
  (List.range 25).map fun i => (A.getD i 0) ^^^ (D.getD (i % 5) 0)

def keccakRhoPi (A : List Nat) : List Nat :=
  (List.range 25).map fun t =>
    let xp := t % 5
    let yp := t / 5
    let x := (3 * ((yp + 15 - 3 * xp) % 5)) % 5
    let s := x + 5 * xp
    rotl64 (A.getD s 0) (keccakRot.getD s 0)

def keccakChi (B : List Nat) : List Nat :=
  (List.range 25).map fun t =>
    let x := t % 5
    let y := t / 5
    (B.getD t 0) ^^^
      (((B.getD ((x+1) % 5 + 5*y) 0) ^^^ (U64 - 1)) &&& (B.getD ((x+2) % 5 + 5*y) 0))

def keccakRound (A : List Nat) (rc : Nat) : List Nat :=
  let B := keccakChi (keccakRhoPi (keccakTheta A))
  B.set 0 ((B.getD 0 0) ^^^ rc)

def keccakF (A : List Nat) : List Nat := keccakRC.foldl keccakRound A

def keccakPad (msg : Bytes) : Bytes :=
  let p := 136 - msg.length % 136
  if p == 1 then msg ++ [0x81]
  else msg ++ 0x01 :: (List.replicate (p - 2) 0 ++ [0x80])

def laneOfBytes (bs : Bytes) : Nat :=
  bs.foldr (fun b acc => acc * 256 + b) 0

def laneToBytes (x : Nat) : Bytes :=
  (List.range 8).map fun k => (x >>> (8*k)) % 256

def absorbBlock (st : List Nat) (block : Bytes) : List Nat :=
  keccakF ((List.range 25).map fun i =>
    if i < 17 then (st.getD i 0) ^^^ laneOfBytes ((block.drop (8*i)).take 8)
    else st.getD i 0)

def chunks136 : Nat → Bytes → List Bytes
  | 0, _ => []
  | _+1, [] => []
  | n+1, l => l.take 136 :: chunks136 n (l.drop 136)

/-- keccak-256 of a byte sequence (rate 136, legacy 0x01 domain padding),
as computed by go-ethereum crypto.Keccak256. -/
def keccak256 (msg : Bytes) : Bytes :=
  let padded := keccakPad msg
  let st := (chunks136 padded.length padded).foldl absorbBlock (List.replicate 25 0)
  ((List.range 4).map fun i => laneToBytes (st.getD i 0)).flatten

/-- UTF-8 bytes of a character, as produced by a Go string-to-bytes conversion. -/
def charUtf8 (c : Char) : Bytes :=
  let n := c.toNat
  if n < 0x80 then [n]
  else if n < 0x800 then [0xC0 ||| (n >>> 6), 0x80 ||| (n &&& 0x3F)]
  else if n < 0x10000 then
    [0xE0 ||| (n >>> 12), 0x80 ||| ((n >>> 6) &&& 0x3F), 0x80 ||| (n &&& 0x3F)]
  else
    [0xF0 ||| (n >>> 18), 0x80 ||| ((n >>> 12) &&& 0x3F),
     0x80 ||| ((n >>> 6) &&& 0x3F), 0x80 ||| (n &&& 0x3F)]

/-- Bytes of a Go string (UTF-8). -/
def utf8Bytes (s : String) : Bytes := (s.data.map charUtf8).flatten

/-! ## Go errors

Mirrors the constructors of the errors package (errors/errors.go).  All
errors in the embedded code are RelayerClientError values built by the
named helpers; goPanic models a Go runtime panic. -/

inductive GoError where
  | relayerClientError (msg : String)
  | invalidSignature (msg : String)
  | invalidChainID (chainID : Int)
  | missingRequiredField (name : String)
  | signerNotConfigured
  | jsonUnmarshalFailed
  | goPanic (msg : String)
deriving DecidableEq

deriving instance DecidableEq for Except

/-! ## Hex utilities (go-ethereum common / common-hexutil) -/

def hexDigitVal (c : Char) : Option Nat :=
  if '0' ≤ c ∧ c ≤ '9' then some (c.toNat - 48)
  else if 'a' ≤ c ∧ c ≤ 'f' then some (c.toNat - 87)
  else if 'A' ≤ c ∧ c ≤ 'F' then some (c.toNat - 55)
  else none

/-- Decode an even-length list of hex characters; none on odd length or a
bad digit (strict variant, used by hexutil.Decode). -/
def hexPairsDecode : List Char → Option Bytes
  | [] => some []
  | [_] => none
  | c1 :: c2 :: rest =>
    match hexDigitVal c1, hexDigitVal c2 with
    | some h, some l =>
      match hexPairsDecode rest with
      | some tail => some ((16*h + l) :: tail)
      | none => none
    | _, _ => none

/-- encoding-hex DecodeString as used through common.Hex2Bytes: decodes
full valid pairs and stops (dropping the rest) at the first bad pair or a
trailing lone character, ignoring the error. -/
def hex2Bytes : List Char → Bytes
  | c1 :: c2 :: rest =>
    match hexDigitVal c1, hexDigitVal c2 with
    | some h, some l => (16*h + l) :: hex2Bytes rest
    | _, _ => []
  | _ => []

/-- hexutil.Decode: requires a 0x or 0X tag, then strict even-length hex. -/
def hexutilDecode (s : String) : Except GoError Bytes :=
  match s.data with
  | '0' :: 'x' :: rest =>
    match hexPairsDecode rest with
    | some bs => .ok bs
    | none => .error (.relayerClientError "invalid hex string")
  | '0' :: 'X' :: rest =>
    match hexPairsDecode rest with
    | some bs => .ok bs
    | none => .error (.relayerClientError "invalid hex string")
  | _ => .error (.relayerClientError "hex string without 0x prefix or empty")

def hexDigitChar (n : Nat) : Char :=
  if n < 10 then Char.ofNat (48 + n) else Char.ofNat (87 + n)

def hexOfBytes : Bytes → List Char
  | [] => []
  | b :: rest => hexDigitChar (b / 16 % 16) :: hexDigitChar (b % 16) :: hexOfBytes rest

/-- hexutil.Encode: 0x-tagged lowercase hex. -/
def hexutilEncode (bs : Bytes) : String := ⟨'0' :: 'x' :: hexOfBytes bs⟩

/-- common.FromHex: optional 0x/0X tag, odd length gets a leading 0, then
lenient decoding (common.Hex2Bytes). -/
def goFromHex (s : String) : Bytes :=
  let cs := match s.data with
    | '0' :: 'x' :: rest => rest
    | '0' :: 'X' :: rest => rest
    | l => l
  hex2Bytes (if cs.length % 2 == 1 then '0' :: cs else cs)

/-- common.BytesToAddress: keep the last 20 bytes, left-pad with zeros. -/
def bytesToAddress (bs : Bytes) : Bytes :=
  let b := if bs.length > 20 then bs.drop (bs.length - 20) else bs
  List.replicate (20 - b.length) 0 ++ b

/-- common.HexToAddress. -/
def hexToAddress (s : String) : Bytes := bytesToAddress (goFromHex s)

/-- common.BytesToHash: keep the last 32 bytes, left-pad with zeros. -/
def bytesToHash (bs : Bytes) : Bytes :=
  let b := if bs.length > 32 then bs.drop (bs.length - 32) else bs
  List.replicate (32 - b.length) 0 ++ b

/-- common.HexToHash. -/
def hexToHash (s : String) : Bytes := bytesToHash (goFromHex s)

/-- common.Address.Hex: EIP-55 checksummed rendering.  The keccak-256 hash
of the lowercase hex characters decides which letters are uppercased. -/
def addressHexChecksum (addr : Bytes) : String :=
  let unchecked := hexOfBytes addr
  let hash := keccak256 (unchecked.map Char.toNat)
  ⟨'0' :: 'x' :: (List.range 40).map (fun i =>
    let c := unchecked.getD i '0'
    let hb := hash.getD (i / 2) 0
    let nib := if i % 2 == 0 then hb / 16 else hb % 16
    if '9' < c ∧ 7 < nib then Char.ofNat (c.toNat - 32) else c)⟩

/-- common.LeftPadBytes: returns the input unchanged when already at least
l bytes long. -/
def leftPadBytes (bs : Bytes) (l : Nat) : Bytes :=
  if l ≤ bs.length then bs else List.replicate (l - bs.length) 0 ++ bs

/-! ## big.Int helpers -/

/-- Auxiliary: big-endian bytes of n with fuel. -/
def natToBytesBE : Nat → Nat → Bytes
  | 0, _ => []
  | _+1, 0 => []
  | f+1, n => natToBytesBE f (n / 256) ++ [n % 256]

/-- big.Int.Bytes: minimal big-endian magnitude bytes (empty for 0). -/
def bigIntBytes (n : Nat) : Bytes := natToBytesBE n n

/-- big.Int.SetBytes composed with value read-out: big-endian value. -/
def bigFromBytesBE (bs : Bytes) : Nat := bs.foldl (fun acc b => acc * 256 + b) 0

/-- big.Int.FillBytes into a 32-byte buffer (caller must know n < 2^256,
otherwise Go panics; callers below check this). -/
def fillBytes32 (n : Nat) : Bytes :=
  List.replicate (32 - (bigIntBytes n).length) 0 ++ bigIntBytes n

/-- Decimal digits of n (fuel-based auxiliary). -/
def natDecDigits : Nat → Nat → List Char
  | 0, _ => []
  | _+1, 0 => []
  | f+1, n => natDecDigits f (n / 10) ++ [Char.ofNat (48 + n % 10)]

/-- big.Int.String for a non-negative value: canonical decimal. -/
def natToDecStr (n : Nat) : String := if n == 0 then "0" else ⟨natDecDigits n n⟩

/-- Decimal rendering of a Go int (used for json.Marshal of int values). -/
def intToDecStr (n : Int) : String :=
  if n < 0 then "-" ++ natToDecStr n.natAbs else natToDecStr n.natAbs

/-- Parse a list of digits in base b (digits must all be below b). -/
def parseDigitsBase (b : Nat) : List Char → Option Nat → Option Nat
  | [], acc => acc
  | c :: rest, acc =>
    match hexDigitVal c with
    | some d =>
      if d < b then
        match acc with
        | some a => parseDigitsBase b rest (some (a * b + d))
        | none => parseDigitsBase b rest (some d)
      else none
    | none => none

/-- big.Int.SetString with base 0: optional sign, then 0x/0X hex, 0b/0B
binary, 0o/0O octal, a leading 0 octal, else decimal.  (Underscored digit
groups are not modelled; no theorem below depends on them.) -/
def goParseBase0 (s : String) : Option Int :=
  let core : List Char → Option Nat := fun cs =>
    match cs with
    | '0' :: 'x' :: rest => parseDigitsBase 16 rest none
    | '0' :: 'X' :: rest => parseDigitsBase 16 rest none
    | '0' :: 'b' :: rest => parseDigitsBase 2 rest none
    | '0' :: 'B' :: rest => parseDigitsBase 2 rest none
    | '0' :: 'o' :: rest => parseDigitsBase 8 rest none
    | '0' :: 'O' :: rest => parseDigitsBase 8 rest none
    | '0' :: rest => if rest.isEmpty then some 0 else parseDigitsBase 8 rest none
    | rest => parseDigitsBase 10 rest none
  match s.data with
  | '-' :: rest => (core rest).map (fun n => -(n : Int))
  | '+' :: rest => (core rest).map (fun n => (n : Int))
  | rest => (core rest).map (fun n => (n : Int))

/-- The value of new(big.Int) after the pattern
if s is nonempty then SetString(s, 0): empty keeps 0.  A failed SetString
leaves the receiver unspecified in Go; it is modelled as 0 here and no
theorem depends on that case. -/
def goBigFromString (s : String) : Int :=
  if s == "" then 0 else (goParseBase0 s).getD 0

/-- Two's-complement int64 read-out of a big.Int value (big.Int.Int64). -/
def goInt64OfNat (n : Nat) : Int :=
  let low := n % U64
  if low < 2^63 then (low : Int) else (low : Int) - (U64 : Int)

/-! ## builder/safe.go: SplitSignature and SplitAndPackSig -/

/-- strings.TrimPrefix with the literal 0x tag. -/
def goTrimHexTag (s : String) : String :=
  match s.data with
  | '0' :: 'x' :: rest => ⟨rest⟩
  | _ => s

/-- builder/safe.go SplitSignature: split a 65-byte hex signature into
r, s (0x hex strings) and the adjusted v. -/
def SplitSignature (signatureHex : String) : Except GoError (String × String × Nat) :=
  let trimmed := goTrimHexTag signatureHex
  match hexutilDecode ("0x" ++ trimmed) with
  | .error _ => .error (.invalidSignature "decode failed")
  | .ok signature =>
    if signature.length ≠ 65 then
      .error (.invalidSignature "signature must be 65 bytes")
    else
      let r := hexutilEncode (signature.take 32)
      let s := hexutilEncode ((signature.drop 32).take 32)
      let v0 := signature.getD 64 0
      let v :=
        if v0 = 27 ∨ v0 = 0 then 31
        else if v0 = 28 ∨ v0 = 1 then 32
        else if v0 ≠ 31 ∧ v0 ≠ 32 then
          (if v0 < 27 then v0 + 31
           else if 27 ≤ v0 ∧ v0 ≤ 28 then v0 - 27 + 31
           else v0)
        else v0
      .ok (r, s, v)

/-- Go copy of src into a k-byte zero buffer: truncate at k, zero-fill the
rest. -/
def copyInto (k : Nat) (src : Bytes) : Bytes :=
  src.take k ++ List.replicate (k - src.length) 0

/-- builder/safe.go SplitAndPackSig: split and re-pack r (32) ++ s (32) ++
v (1) as a 0x hex string. -/
def SplitAndPackSig (signatureHex : String) : Except GoError String :=
  match SplitSignature signatureHex with
  | .error e => .error e
  | .ok (r, s, v) =>
    match hexutilDecode r with
    | .error _ => .error (.invalidSignature "r decode")
    | .ok rBytes =>
      match hexutilDecode s with
      | .error _ => .error (.invalidSignature "s decode")
      | .ok sBytes =>
        .ok (hexutilEncode (copyInto 32 rBytes ++ copyInto 32 sBytes ++ [v % 256]))

/-! ## signer/signer.go

The secp256k1 primitive crypto.Sign (digest to 65-byte signature with
recovery byte in 0 or 1) is external to the repository; the functions take
it as a parameter ecSign. -/

/-- The v adjustment both signing methods perform on the primitive's
output: add 27 when the recovery byte is below 27. -/
def adjustSigV (sig : Bytes) : Bytes :=
  if sig.getD 64 0 < 27 then sig.set 64 (sig.getD 64 0 + 27) else sig

/-- The EIP-191 personal-message tag bytes for an n-byte message:
0x19 ++ "Ethereum Signed Message:\n" ++ decimal n. -/
def eip191Tag (n : Nat) : Bytes :=
  0x19 :: utf8Bytes "Ethereum Signed Message:\n" ++ utf8Bytes (natToDecStr n)

/-- signer/signer.go Signer.Sign: requires a 32-byte hash and passes it to
crypto.Sign directly (despite the comment in the source, crypto.Sign does
not add any message tag), then adjusts v. -/
def signerSign (ecSign : Bytes → Bytes) (messageHash : Bytes) : Except GoError String :=
  if messageHash.length ≠ 32 then
    .error (.relayerClientError "message hash must be 32 bytes")
  else .ok (hexutilEncode (adjustSigV (ecSign messageHash)))

/-- signer/signer.go Signer.SignEIP712StructHash: requires a 32-byte hash,
hashes the EIP-191 tagged message and signs that digest, then adjusts v. -/
def signerSignEIP712StructHash (ecSign : Bytes → Bytes) (messageHash : Bytes) :
    Except GoError String :=
  if messageHash.length ≠ 32 then
    .error (.relayerClientError "message hash must be 32 bytes")
  else
    let prefixedHash := keccak256 (eip191Tag messageHash.length ++ messageHash)
    .ok (hexutilEncode (adjustSigV (ecSign prefixedHash)))

/-- Signing step of builder/safe.go CreateSafeSignature (the EXECUTE
path): once CreateSafeStructHash has produced the struct hash, the
signature is sig.SignEIP712StructHash(structHash.Bytes()). -/
def createSafeSignatureOfStructHash (ecSign : Bytes → Bytes) (structHash : Bytes) :
    Except GoError String :=
  signerSignEIP712StructHash ecSign structHash

/-- Signing step of builder/create.go CreateSafeCreateSignature (the
CREATE path): once CreateSafeCreateStructHash has produced the struct
hash, the signature is sig.Sign(structHash.Bytes()). -/
def createSafeCreateSignatureOfStructHash (ecSign : Bytes → Bytes) (structHash : Bytes) :
    Except GoError String :=
  signerSign ecSign structHash

/-- signer/signer.go RecoverAddress.  The recovery primitive
crypto.SigToPub is a parameter returning the marshalled public key; the
function returns the call result together with the state of the caller's
signature buffer after the call (the v byte is decremented in place). -/
def RecoverAddress (sigToPub : Bytes → Bytes → Except GoError Bytes)
    (messageHash signature : Bytes) : Except GoError Bytes × Bytes :=
  if signature.length ≠ 65 then
    (.error (.invalidSignature "signature must be 65 bytes"), signature)
  else
    let v := signature.getD 64 0
    let signature1 := if 27 ≤ v then signature.set 64 (v - 27) else signature
    match sigToPub messageHash signature1 with
    | .error _ => (.error (.invalidSignature "recover failed"), signature1)
    | .ok pub => (.ok (bytesToAddress ((keccak256 (pub.drop 1)).drop 12)), signature1)

/-! ## models: SafeTransaction (models/transaction.go) -/

/-- models.SafeTransaction: To, Value, Data are strings on the wire;
Operation is a Go int (models.Call = 0, models.DelegateCall = 1). -/
structure SafeTransaction where
  To : String
  Value : String
  Data : String
  Operation : Int
deriving DecidableEq

/-! ## builder/multisend.go -/

/-- Go byte(x) conversion of an int: the low 8 bits. -/
def byteOfInt (x : Int) : Nat := (x % 256).toNat

/-- The transaction-data decode step shared by the multisend encoders:
empty or 0x data is no bytes, anything else must be strict hex. -/
def decodeTxnData (data : String) : Except GoError Bytes :=
  if data ≠ "" ∧ data ≠ "0x" then
    match hexutilDecode data with
    | .ok bs => .ok bs
    | .error _ => .error (.relayerClientError "failed to decode transaction data")
  else .ok []

/-- One entry of the multisend packed encoding:
operation (1) ++ to (20) ++ value (32) ++ data length (32) ++ data.
big.Int.FillBytes panics when the value does not fit 32 bytes. -/
def encodeMultiSendEntry (txn : SafeTransaction) : Except GoError Bytes :=
  let toAddr := hexToAddress txn.To
  let value := goBigFromString txn.Value
  if value < 0 ∨ (2^256 : Int) ≤ value then .error (.goPanic "FillBytes: value does not fit")
  else
    match decodeTxnData txn.Data with
    | .error e => .error e
    | .ok dataBytes =>
      .ok (byteOfInt txn.Operation :: toAddr ++ fillBytes32 value.toNat
            ++ fillBytes32 dataBytes.length ++ dataBytes)

/-- builder/multisend.go EncodeMultiSendData: concatenation of the packed
entries (no emptiness check here). -/
def EncodeMultiSendData : List SafeTransaction → Except GoError Bytes
  | [] => .ok []
  | txn :: rest =>
    match encodeMultiSendEntry txn with
    | .error e => .error e
    | .ok entry =>
      match EncodeMultiSendData rest with
      | .error e => .error e
      | .ok tail => .ok (entry ++ tail)

def MULTISEND_FUNCTION_SELECTOR : String := "0x8d80ff0a"

def ZERO_ADDRESS : String := "0x0000000000000000000000000000000000000000"

/-- builder/multisend.go CreateSafeMultisendTransaction: encode the batch
(the in-function loop is byte-for-byte the EncodeMultiSendData loop), wrap
it as selector ++ offset 32 ++ length ++ batch, then pad the whole call
data - including the 4-byte selector - to a multiple of 32 bytes. -/
def CreateSafeMultisendTransaction (transactions : List SafeTransaction)
    (multiSendAddress : String) : Except GoError SafeTransaction :=
  if transactions.length = 0 then .error (.relayerClientError "no transactions to encode")
  else
    match EncodeMultiSendData transactions with
    | .error e => .error e
    | .ok encodedTxns =>
      match hexutilDecode MULTISEND_FUNCTION_SELECTOR with
      | .error _ => .error (.relayerClientError "invalid multisend selector")
      | .ok selector =>
        let callData := selector ++ (List.replicate 31 0 ++ [32])
          ++ fillBytes32 encodedTxns.length ++ encodedTxns
        let remainder := callData.length % 32
        let callData := if remainder ≠ 0 then callData ++ List.replicate (32 - remainder) 0
          else callData
        .ok { To := multiSendAddress, Value := "0",
              Data := hexutilEncode callData, Operation := 1 }

/-- builder/multisend.go AggregateSafeTransaction: empty is an error, a
singleton is returned as-is, two or more become a multisend wrap. -/
def AggregateSafeTransaction (transactions : List SafeTransaction)
    (safeMultisend : String) : Except GoError SafeTransaction :=
  match transactions with
  | [] => .error (.relayerClientError "no transactions to aggregate")
  | [txn] => .ok txn
  | _ => CreateSafeMultisendTransaction transactions safeMultisend

/-- bytes.Reader.Read into a k-byte zero buffer: io.EOF only when the
reader is already empty; otherwise a possibly short read that leaves the
unfilled tail of the buffer zero and is not reported as an error. -/
def readerRead (k : Nat) (msg : String) (rem : Bytes) :
    Except GoError (Bytes × Bytes) :=
  if rem.isEmpty then .error (.relayerClientError msg)
  else .ok (rem.take k ++ List.replicate (k - rem.length) 0, rem.drop k)

/-- The loop body of builder/multisend.go DecodeMultiSendData, with fuel
bounding the number of entries (the caller passes the buffer length, which
always suffices since every iteration consumes at least one byte). -/
def decodeMultiSendLoop : Nat → Bytes → Except GoError (List SafeTransaction)
  | _, [] => .ok []
  | 0, _ => .error (.goPanic "out of fuel")
  | fuel+1, rem0 =>
    match readerRead 1 "failed to read operation" rem0 with
    | .error e => .error e
    | .ok (opB, rem1) =>
      match readerRead 20 "failed to read to address" rem1 with
      | .error e => .error e
      | .ok (toB, rem2) =>
        match readerRead 32 "failed to read value" rem2 with
        | .error e => .error e
        | .ok (valB, rem3) =>
          match readerRead 32 "failed to read data length" rem3 with
          | .error e => .error e
          | .ok (lenB, rem4) =>
            let dataLength := bigFromBytesBE lenB
            let step : Except GoError (Bytes × Bytes) :=
              if 0 < dataLength then
                if goInt64OfNat dataLength < 0 then
                  .error (.goPanic "makeslice: len out of range")
                else readerRead (goInt64OfNat dataLength).toNat "failed to read data" rem4
              else .ok ([], rem4)
            match step with
            | .error e => .error e
            | .ok (txnData, rem5) =>
              match decodeMultiSendLoop fuel rem5 with
              | .error e => .error e
              | .ok rest =>
                .ok ({ To := addressHexChecksum (bytesToAddress toB),
                       Value := natToDecStr (bigFromBytesBE valB),
                       Data := hexutilEncode txnData,
                       Operation := (opB.getD 0 0 : Int) } :: rest)

/-- builder/multisend.go DecodeMultiSendData. -/
def DecodeMultiSendData (data : Bytes) : Except GoError (List SafeTransaction) :=
  if data.length = 0 then .error (.relayerClientError "empty multisend data")
  else decodeMultiSendLoop data.length data

/-! ## config/builder.go: contract configuration registry -/

structure ContractConfig where
  SafeFactory : String
  SafeSingleton : String
  SafeFallbackHandler : String
  SafeMultisend : String
  ChainID : Int
deriving DecidableEq

def polygonAmoyConfig : ContractConfig :=
  { ChainID := 80002,
    SafeFactory := "0xaacFeEa03eb1561C4e67d661e40682Bd20E3541b",
    SafeSingleton := "0x3E5c63644E683549055b9Be8653de26E0B4CD36E",
    SafeFallbackHandler := "0xf48f2B2d2a534e402487b3ee7C18c33Aec0Fe5e4",
    SafeMultisend := "0xA238CBeb142c10Ef7Ad8442C6D1f9E89e07e7761" }

def polygonMainnetConfig : ContractConfig :=
  { ChainID := 137,
    SafeFactory := "0xaacFeEa03eb1561C4e67d661e40682Bd20E3541b",
    SafeSingleton := "0x3E5c63644E683549055b9Be8653de26E0B4CD36E",
    SafeFallbackHandler := "0xf48f2B2d2a534e402487b3ee7C18c33Aec0Fe5e4",
    SafeMultisend := "0xA238CBeb142c10Ef7Ad8442C6D1f9E89e07e7761" }

/-- config/builder.go GetContractConfig: lookup in the static chain map
(80002 and 137); unregistered chains are a hard error
(errors.ErrInvalidChainID).  Runtime registration through AddChainConfig
mutates a package-level map and is outside this model. -/
def GetContractConfig (chainID : Int) : Except GoError ContractConfig :=
  if chainID = 80002 then .ok polygonAmoyConfig
  else if chainID = 137 then .ok polygonMainnetConfig
  else .error (.invalidChainID chainID)

/-! ## builder/derive.go: CREATE2 address derivation -/

def SAFE_INIT_CODE_HASH : String :=
  "0x2bce2127ff07fb632d16c8347c4ebf501f4841168bed00d9e6ef715ddb6fcecf"

/-- The Go zero value of common.Address. -/
def zeroAddress20 : Bytes := List.replicate 20 0

/-- builder/derive.go DeriveSafeAddress: config lookup, salt from the
left-padded owner, then the CREATE2 formula over the fixed init-code-hash
constant. -/
def DeriveSafeAddress (signerAddress : Bytes) (chainID : Int) : Except GoError Bytes :=
  match GetContractConfig chainID with
  | .error e => .error e
  | .ok contractConfig =>
    let factoryAddress := hexToAddress contractConfig.SafeFactory
    let salt := keccak256 (leftPadBytes signerAddress 32)
    let initCodeHash := hexToHash SAFE_INIT_CODE_HASH
    let data := 0xff :: factoryAddress ++ salt ++ initCodeHash
    let hash := keccak256 data
    .ok (bytesToAddress (hash.drop 12))

/-- builder/derive.go encodeSafeSetupParams: head slots for the eight
setup parameters with offsets 256 (owners) and 256+32+32*len(owners)
(data), then the owners tail and the data tail padded to 32 bytes. -/
def encodeSafeSetupParams (owners : List Bytes) (threshold : Nat) (toParam : Bytes)
    (data : Bytes) (fallbackHandler paymentToken : Bytes) (payment : Nat)
    (paymentReceiver : Bytes) : Bytes :=
  leftPadBytes (bigIntBytes 256) 32
  ++ leftPadBytes (bigIntBytes threshold) 32
  ++ leftPadBytes toParam 32
  ++ leftPadBytes (bigIntBytes (256 + 32 + owners.length * 32)) 32
  ++ leftPadBytes fallbackHandler 32
  ++ leftPadBytes paymentToken 32
  ++ leftPadBytes (bigIntBytes payment) 32
  ++ leftPadBytes paymentReceiver 32
  ++ leftPadBytes (bigIntBytes owners.length) 32
  ++ (owners.map (fun o => leftPadBytes o 32)).flatten
  ++ leftPadBytes (bigIntBytes data.length) 32
  ++ (if data.length > 0 then
        data ++ List.replicate ((32 - data.length % 32) % 32) 0
      else [])

/-- builder/derive.go buildSafeInitializer: the setup(...) selector
followed by the encoded setup parameters for a single owner. -/
def buildSafeInitializer (signerAddress : Bytes) (contractConfig : ContractConfig) : Bytes :=
  (keccak256 (utf8Bytes "setup(address[],uint256,address,bytes,address,address,uint256,address)")).take 4
  ++ encodeSafeSetupParams [signerAddress] 1 zeroAddress20 []
      (hexToAddress contractConfig.SafeFallbackHandler) zeroAddress20 0 zeroAddress20

/-! ## builder/create.go and client/client.go: the CREATE request -/

/-- models.SafeCreateTransactionArgs. -/
structure SafeCreateTransactionArgs where
  SignerAddress : String
  SafeAddress : String
  Nonce : String
  Metadata : String
deriving DecidableEq

/-- models.TransactionRequest; To, Value, Data, Operation hold the
marshalled JSON fragments (json.RawMessage). -/
structure TransactionRequest where
  Ty : String
  SafeAddress : String
  To : String
  Value : String
  Data : String
  Operation : String
  Signatures : List (String × String)
  GasPrice : String
  SafeTxGas : String
  BaseGas : String
  GasToken : String
  RefundReceiver : String
  Nonce : String
  ChainID : Int
  Metadata : Option String
deriving DecidableEq

/-- json.Marshal of a plain string with no characters needing escapes (all
strings marshalled below are hex strings and addresses). -/
def jsonQuote (s : String) : String := "\"" ++ s ++ "\""

/-- builder/create.go BuildSafeCreateTransactionRequest.  The signature
subroutine CreateSafeCreateSignature(args, sig, chainID) is a parameter
(createSignature) together with the signer presence flag and address: the
repository holds two incompatible versions of the CreateProxy struct that
subroutine hashes (builder/eip712.go declares payment fields, while
builder/create.go populates singleton, initializer and saltNonce fields),
and nothing proved about this function depends on the signature bytes.
Everything downstream of that call is translated directly. -/
def BuildSafeCreateTransactionRequest (signerConfigured : Bool) (signerAddressHex : String)
    (createSignature : Except GoError String) (args : Option SafeCreateTransactionArgs)
    (chainID : Int) : Except GoError TransactionRequest :=
  match args with
  | none => .error (.missingRequiredField "args")
  | some args =>
    if !signerConfigured then .error .signerNotConfigured
    else
      match GetContractConfig chainID with
      | .error e => .error e
      | .ok contractConfig =>
        match createSignature with
        | .error e => .error e
        | .ok signature =>
          match SplitAndPackSig signature with
          | .error e => .error e
          | .ok packedSig =>
            let initializer := buildSafeInitializer (hexToAddress args.SignerAddress)
              contractConfig
            let toVal := contractConfig.SafeFactory
            let value := "0"
            let data := hexutilEncode initializer
            let operation : Int := 0
            .ok { Ty := "SAFE-CREATE",
                  SafeAddress := args.SafeAddress,
                  To := jsonQuote toVal,
                  Value := jsonQuote value,
                  Data := jsonQuote data,
                  Operation := intToDecStr operation,
                  Signatures := [(signerAddressHex, packedSig)],
                  GasPrice := "0", SafeTxGas := "0", BaseGas := "0",
                  GasToken := ZERO_ADDRESS,
                  RefundReceiver := ZERO_ADDRESS,
                  Nonce := args.Nonce,
                  ChainID := chainID,
                  Metadata := if args.Metadata ≠ "" then some args.Metadata else none }

/-- client/client.go Deploy, nonce flow: the SafeCreateTransactionArgs it
passes to BuildSafeCreateTransactionRequest carry the nonce string fetched
from the relayer through GetNonce (signer type EOA), not a constant. -/
def deployCreateArgs (signerAddressHex safeAddress fetchedNonce : String) :
    SafeCreateTransactionArgs :=
  { SignerAddress := signerAddressHex, SafeAddress := safeAddress,
    Nonce := fetchedNonce, Metadata := "" }

/-! ## signer/eip712.go: typed-data hashing -/

/-- signer.EIP712Type; the Go field named Type is called Ty here since
Type is reserved in Lean. -/
structure EIP712Type where
  Name : String
  Ty : String
deriving DecidableEq

/-- signer.EIP712Domain.  Pointer fields (ChainId as a big.Int pointer,
Salt as a hash pointer) are options; the other fields use the Go zero
value for absence, matching the omitempty reflection check. -/
structure EIP712Domain where
  Name : String
  Version : String
  ChainId : Option Int
  VerifyingContract : Bytes
  Salt : Option Bytes
deriving DecidableEq

/-- The dynamic values (Go interface values) the hasher dispatches on. -/
inductive GoValue where
  | str (s : String)
  | bytes (b : Bytes)
  | bigInt (n : Int)
  | int (n : Int)
  | bool (b : Bool)
  | addr (a : Bytes)
  | hashPtr (h : Bytes)
  | record (m : List (String × GoValue))
  | domain (d : EIP712Domain)

/-- Go map lookup on the association lists standing in for maps. -/
def lookupAssoc {α : Type} (m : List (String × α)) (k : String) : Option α :=
  match m with
  | [] => none
  | (k1, v) :: rest => if k1 = k then some v else lookupAssoc rest k

/-- signer/eip712.go structToMap applied to an EIP712Domain: the json-tag
names of the fields whose values are not reflection zero values (all the
tags carry omitempty). -/
def structToMap (domain : EIP712Domain) : List (String × GoValue) :=
  (if domain.Name ≠ "" then [("name", GoValue.str domain.Name)] else [])
  ++ (if domain.Version ≠ "" then [("version", GoValue.str domain.Version)] else [])
  ++ (match domain.ChainId with
      | some n => [("chainId", GoValue.bigInt n)]
      | none => [])
  ++ (if domain.VerifyingContract ≠ zeroAddress20 then
        [("verifyingContract", GoValue.addr domain.VerifyingContract)]
      else [])
  ++ (match domain.Salt with
      | some h => [("salt", GoValue.hashPtr h)]
      | none => [])

/-- signer/eip712.go toMap: maps pass through, an EIP712Domain goes
through structToMap, anything else takes the JSON round trip, which only
produces a map for JSON objects (modelled as failure; no theorem depends
on the JSON case). -/
def toMap (data : GoValue) : Except GoError (List (String × GoValue)) :=
  match data with
  | .record m => .ok m
  | .domain d => .ok (structToMap d)
  | _ => .error .jsonUnmarshalFailed

/-- signer/eip712.go encodeTypeString. -/
def encodeTypeString (typeName : String) (typeFields : List EIP712Type) : String :=
  typeName ++ "(" ++
    String.intercalate "," (typeFields.map (fun f => f.Ty ++ " " ++ f.Name)) ++ ")"

/-- signer/eip712.go hashType (the error return is always nil). -/
def hashType (typeName : String) (typeFields : List EIP712Type) : Bytes :=
  keccak256 (utf8Bytes (encodeTypeString typeName typeFields))

/-- Left-aligned copy into a 32-byte zero buffer (fixed-size bytes
encoding). -/
def rightPad32 (bs : Bytes) : Bytes := copyInto 32 bs

/-- signer/eip712.go encodeValue, with the nested-struct case delegated to
the handler hStruct (hashStruct at the enclosing recursion depth).  The
branches follow the source dispatch order; the float64 interface case has
no counterpart among the embedded values. -/
def encodeValueF (types : List (String × List EIP712Type))
    (hStruct : String → GoValue → Except GoError Bytes)
    (fieldType : String) (value : GoValue) : Except GoError Bytes :=
  if fieldType = "string" then
    match value with
    | .str s => .ok (keccak256 (utf8Bytes s))
    | _ => .error (.relayerClientError "expected string")
  else if fieldType = "bytes" then
    match value with
    | .str s => .ok (keccak256 ((hexutilDecode s).toOption.getD []))
    | .bytes b => .ok (keccak256 b)
    | _ => .error (.relayerClientError "expected bytes")
  else if "bytes".isPrefixOf fieldType then
    match value with
    | .str s => .ok (rightPad32 ((hexutilDecode s).toOption.getD []))
    | .bytes b => .ok (rightPad32 b)
    | _ => .error (.relayerClientError "expected bytes")
  else if fieldType = "address" then
    match value with
    | .str s => .ok (List.replicate 12 0 ++ hexToAddress s)
    | .addr a => .ok (List.replicate 12 0 ++ a)
    | _ => .error (.relayerClientError "expected address")
  else if "uint".isPrefixOf fieldType ∨ "int".isPrefixOf fieldType then
    match value with
    | .str s =>
      let n := ((goParseBase0 s).getD 0).natAbs
      if 32 < (bigIntBytes n).length then .error (.goPanic "slice bounds out of range")
      else .ok (List.replicate (32 - (bigIntBytes n).length) 0 ++ bigIntBytes n)
    | .bigInt n =>
      if 32 < (bigIntBytes n.natAbs).length then .error (.goPanic "slice bounds out of range")
      else .ok (List.replicate (32 - (bigIntBytes n.natAbs).length) 0 ++ bigIntBytes n.natAbs)
    | .int n =>
      if 32 < (bigIntBytes n.natAbs).length then .error (.goPanic "slice bounds out of range")
      else .ok (List.replicate (32 - (bigIntBytes n.natAbs).length) 0 ++ bigIntBytes n.natAbs)
    | _ => .error (.relayerClientError "expected integer")
  else if fieldType = "bool" then
    match value with
    | .bool b => .ok (List.replicate 31 0 ++ [if b then 1 else 0])
    | _ => .error (.relayerClientError "expected bool")
  else
    match lookupAssoc types fieldType with
    | some _ => hStruct fieldType value
    | none => .error (.relayerClientError ("unsupported type: " ++ fieldType))

/-- The field loop of signer/eip712.go encodeData: declared fields in
order, erroring on the first field absent from the data map. -/
def encodeFieldsF (encVal : String → GoValue → Except GoError Bytes) :
    List EIP712Type → List (String × GoValue) → Except GoError Bytes
  | [], _ => .ok []
  | f :: rest, dataMap =>
    match lookupAssoc dataMap f.Name with
    | none => .error (.relayerClientError ("field " ++ f.Name ++ " not found in data"))
    | some v =>
      match encVal f.Ty v with
      | .error e => .error e
      | .ok enc =>
        match encodeFieldsF encVal rest dataMap with
        | .error e => .error e
        | .ok tail => .ok (enc ++ tail)

/-- signer/eip712.go encodeData: type lookup, toMap, then the field loop. -/
def encodeDataF (types : List (String × List EIP712Type))
    (encVal : String → GoValue → Except GoError Bytes)
    (primaryType : String) (data : GoValue) : Except GoError Bytes :=
  match lookupAssoc types primaryType with
  | none => .error (.relayerClientError ("type " ++ primaryType ++ " not found"))
  | some typeFields =>
    match toMap data with
    | .error e => .error e
    | .ok dataMap => encodeFieldsF encVal typeFields dataMap

/-- signer/eip712.go hashStruct, with fuel bounding the nested-struct
recursion depth (Go recurses unboundedly on cyclic type maps). -/
def hashStruct (types : List (String × List EIP712Type)) :
    Nat → String → GoValue → Except GoError Bytes
  | 0, _, _ => .error (.goPanic "recursion limit")
  | fuel+1, primaryType, data =>
    match lookupAssoc types primaryType with
    | none => .error (.relayerClientError ("type " ++ primaryType ++ " not found"))
    | some typeFields =>
      let th := hashType primaryType typeFields
      match encodeDataF types (encodeValueF types (hashStruct types fuel))
          primaryType data with
      | .error e => .error e
      | .ok encodedData => .ok (keccak256 (th ++ encodedData))

/-- The domain field loop of signer/eip712.go hashDomain: a declared field
absent from the domain map is skipped, a present one is encoded. -/
def hashDomainFields (types : List (String × List EIP712Type)) (fuel : Nat) :
    List EIP712Type → List (String × GoValue) → Except GoError Bytes
  | [], _ => .ok []
  | f :: rest, domainMap =>
    match lookupAssoc domainMap f.Name with
    | none => hashDomainFields types fuel rest domainMap
    | some v =>
      match encodeValueF types (hashStruct types fuel) f.Ty v with
      | .error e => .error e
      | .ok enc =>
        match hashDomainFields types fuel rest domainMap with
        | .error e => .error e
        | .ok tail => .ok (enc ++ tail)

/-- The default EIP712Domain type used when the spec declares none. -/
def defaultDomainTypes : List EIP712Type :=
  [⟨"name", "string"⟩, ⟨"version", "string"⟩, ⟨"chainId", "uint256"⟩,
   ⟨"verifyingContract", "address"⟩]

/-- signer/eip712.go hashDomain. -/
def hashDomain (types : List (String × List EIP712Type)) (fuel : Nat)
    (domain : EIP712Domain) : Except GoError Bytes :=
  let domainTypes := (lookupAssoc types "EIP712Domain").getD defaultDomainTypes
  let th := hashType "EIP712Domain" domainTypes
  match hashDomainFields types fuel domainTypes (structToMap domain) with
  | .error e => .error e
  | .ok encoded => .ok (keccak256 (th ++ encoded))

/-! ## General lemmas about the embedded primitives -/

theorem keccak256_length (msg : Bytes) : (keccak256 msg).length = 32 := by
  have h8 : ∀ x : Nat, (laneToBytes x).length = 8 := by
    intro x
    simp [laneToBytes]
  have hr : List.range 4 = [0, 1, 2, 3] := by decide
  simp [keccak256, hr, h8]

theorem bytesToAddress_length (bs : Bytes) : (bytesToAddress bs).length = 20 := by
  unfold bytesToAddress
  by_cases h : bs.length > 20
  · simp only [h, if_true]
    simp only [List.length_append, List.length_replicate, List.length_drop]
    omega
  · simp only [h, if_false]
    simp only [List.length_append, List.length_replicate]
    omega

theorem take_set_le {α : Type} (l : List α) (a : α) (m n : Nat) (h : m ≤ n) :
    (l.set n a).take m = l.take m := by
  apply List.ext_getElem?
  intro i
  rw [List.getElem?_take, List.getElem?_take]
  by_cases hi : i < m
  · simp only [hi, if_true]
    rw [List.getElem?_set_ne (by omega)]
  · simp [hi]

theorem bytesToAddress_of_len20 (bs : Bytes) (h : bs.length = 20) :
    bytesToAddress bs = bs := by
  unfold bytesToAddress
  simp [h]

/-- A fixed, concrete signing primitive used to instantiate parametric
theorems at concrete inputs. -/
def idSign (bs : Bytes) : Bytes := bs

def zeros32 : Bytes := List.replicate 32 0

/-- A fixed, concrete recovery primitive used to instantiate parametric
theorems at concrete inputs. -/
def constPub (_messageHash _signature : Bytes) : Except GoError Bytes :=
  .ok (List.replicate 65 4)

theorem hexDigitVal_hexDigitChar (d : Nat) (h : d < 16) :
    hexDigitVal (hexDigitChar d) = some d := by
  interval_cases d <;> decide

theorem hexPairsDecode_hexOfBytes (bs : Bytes) (h : ∀ b ∈ bs, b < 256) :
    hexPairsDecode (hexOfBytes bs) = some bs := by
  induction bs with
  | nil => rfl
  | cons b rest ih =>
    have hb : b < 256 := h b (by simp)
    have hd : b / 16 < 16 := by omega
    simp only [hexOfBytes, hexPairsDecode]
    rw [hexDigitVal_hexDigitChar (b / 16 % 16) (Nat.mod_lt _ (by omega)),
        hexDigitVal_hexDigitChar (b % 16) (Nat.mod_lt _ (by omega))]
    simp only [ih (fun x hx => h x (List.mem_cons_of_mem b hx))]
    rw [Nat.mod_eq_of_lt hd]
    rw [Nat.div_add_mod b 16]

theorem hexutilDecode_hexutilEncode (bs : Bytes) (h : ∀ b ∈ bs, b < 256) :
    hexutilDecode (hexutilEncode bs) = .ok bs := by
  simp only [hexutilEncode, hexutilDecode]
  rw [hexPairsDecode_hexOfBytes bs h]

theorem length_hexOfBytes (bs : Bytes) : (hexOfBytes bs).length = 2 * bs.length := by
  induction bs with
  | nil => rfl
  | cons b rest ih =>
    simp only [hexOfBytes, List.length_cons, ih]
    omega

/-! ## C9: single-call aggregation bypass -/

/-- C9: AggregateSafeTransaction returns a singleton call unchanged (same
target, value, data and operation, no multisend wrapping), and for two or
more calls it returns the multisend-wrapped outer call built by
CreateSafeMultisendTransaction. -/
theorem c9_aggregate_single_bypass (transactions : List SafeTransaction)
    (safeMultisend : String) :
    (∀ txn, transactions = [txn] →
      AggregateSafeTransaction transactions safeMultisend = .ok txn)
    ∧ (2 ≤ transactions.length →
      AggregateSafeTransaction transactions safeMultisend =
        CreateSafeMultisendTransaction transactions safeMultisend) := by
  constructor
  · intro txn h
    subst h
    rfl
  · intro h
    match transactions with
    | [] => simp at h
    | [t] => simp at h
    | a :: b :: rest => rfl

def c9call : SafeTransaction :=
  { To := "0x2791bca1f2de4661ed88a30c99a7a9449aa84174", Value := "5",
    Data := "0x", Operation := 0 }

/-- Witness for C9 at a concrete singleton and a concrete pair. -/
theorem c9_aggregate_single_bypass_witness :
    AggregateSafeTransaction [c9call] "0xA238CBeb142c10Ef7Ad8442C6D1f9E89e07e7761" = .ok c9call
    ∧ AggregateSafeTransaction [c9call, c9call] "0xA238CBeb142c10Ef7Ad8442C6D1f9E89e07e7761" =
      CreateSafeMultisendTransaction [c9call, c9call]
        "0xA238CBeb142c10Ef7Ad8442C6D1f9E89e07e7761" :=
  ⟨(c9_aggregate_single_bypass [c9call] "0xA238CBeb142c10Ef7Ad8442C6D1f9E89e07e7761").1
      c9call rfl,
   (c9_aggregate_single_bypass [c9call, c9call]
      "0xA238CBeb142c10Ef7Ad8442C6D1f9E89e07e7761").2 (by decide)⟩

/-! ## C10: RecoverAddress mutates the signature buffer in place -/

/-- C10: for a 65-byte signature whose final byte v is at least 27,
RecoverAddress leaves the caller's buffer holding v - 27 in the final
byte, with the first 64 bytes (r and s) unchanged, whatever the recovery
primitive does. -/
theorem c10_recover_mutates_buffer (sigToPub : Bytes → Bytes → Except GoError Bytes)
    (messageHash signature : Bytes) (h65 : signature.length = 65)
    (hv : 27 ≤ signature.getD 64 0) :
    (RecoverAddress sigToPub messageHash signature).2 =
      signature.set 64 (signature.getD 64 0 - 27)
    ∧ ((RecoverAddress sigToPub messageHash signature).2.getD 64 0 =
        signature.getD 64 0 - 27
      ∧ (RecoverAddress sigToPub messageHash signature).2.take 64 =
        signature.take 64) := by
  have hbuf : (RecoverAddress sigToPub messageHash signature).2 =
      signature.set 64 (signature.getD 64 0 - 27) := by
    unfold RecoverAddress
    simp only [h65]
    simp only [if_neg (by omega : ¬ (65 ≠ 65))]
    simp only [if_pos hv]
    cases sigToPub messageHash (signature.set 64 (signature.getD 64 0 - 27)) <;> rfl
  refine ⟨hbuf, ?_, ?_⟩
  · rw [hbuf]
    have h64 : 64 < signature.length := by omega
    simp [List.getD, List.getElem?_set, h64]
  · rw [hbuf]
    exact take_set_le signature _ 64 64 (by omega)

def c10sig : Bytes := List.replicate 32 1 ++ List.replicate 32 2 ++ [28]

/-- Witness for C10 at a concrete signature with v = 28. -/
theorem c10_recover_mutates_buffer_witness :
    c10sig.length = 65 ∧ 27 ≤ c10sig.getD 64 0
    ∧ ((RecoverAddress constPub zeros32 c10sig).2 =
        c10sig.set 64 (c10sig.getD 64 0 - 27)
      ∧ ((RecoverAddress constPub zeros32 c10sig).2.getD 64 0 =
          c10sig.getD 64 0 - 27
        ∧ (RecoverAddress constPub zeros32 c10sig).2.take 64 =
          c10sig.take 64)) :=
  ⟨by decide, by decide,
   c10_recover_mutates_buffer constPub zeros32 c10sig (by decide) (by decide)⟩

/-! ## C2: which digest each signing path passes to the ECDSA primitive -/

/-- C2 (amended): for every 32-byte struct hash and every signing
primitive, the EXECUTE signing step (CreateSafeSignature via
SignEIP712StructHash) signs the keccak-256 of the EIP-191 tagged digest,
while the CREATE signing step (CreateSafeCreateSignature via Sign) passes
the struct hash to the primitive raw - the opposite pairing of the claim. -/
theorem c2_signing_paths (ecSign : Bytes → Bytes) (structHash : Bytes)
    (h : structHash.length = 32) :
    createSafeSignatureOfStructHash ecSign structHash =
      .ok (hexutilEncode (adjustSigV (ecSign
        (keccak256 (eip191Tag 32 ++ structHash)))))
    ∧ createSafeCreateSignatureOfStructHash ecSign structHash =
      .ok (hexutilEncode (adjustSigV (ecSign structHash))) := by
  unfold createSafeSignatureOfStructHash signerSignEIP712StructHash
    createSafeCreateSignatureOfStructHash signerSign
  rw [h]
  simp

/-- Witness for C2 (amended) at the zero digest with the identity
primitive. -/
theorem c2_signing_paths_witness :
    zeros32.length = 32
    ∧ (createSafeSignatureOfStructHash idSign zeros32 =
        .ok (hexutilEncode (adjustSigV (idSign
          (keccak256 (eip191Tag 32 ++ zeros32)))))
      ∧ createSafeCreateSignatureOfStructHash idSign zeros32 =
        .ok (hexutilEncode (adjustSigV (idSign zeros32)))) :=
  ⟨by decide, c2_signing_paths idSign zeros32 (by decide)⟩

set_option maxRecDepth 200000 in
/-- Counterexample to C2 as stated: at the zero digest with the identity
primitive, the EXECUTE path does not sign the raw struct hash and the
CREATE path does not sign the tagged hash - the pairing in the claim is
reversed in the code. -/
theorem c2_counterexample :
    ¬ (createSafeSignatureOfStructHash idSign zeros32 =
        .ok (hexutilEncode (adjustSigV (idSign zeros32)))
      ∧ createSafeCreateSignatureOfStructHash idSign zeros32 =
        .ok (hexutilEncode (adjustSigV (idSign
          (keccak256 (eip191Tag 32 ++ zeros32)))))) := by
  decide

/-! ## C4: the multisend outer-call wrapper and its padding -/

/-- The two identical approve calls whose canonical multisend encoding is
recorded in the repository test data (builder safe test, struct hash test
vector from the reference implementation). -/
def c4ApproveCall : SafeTransaction :=
  { To := "0x2791bca1f2de4661ed88a30c99a7a9449aa84174", Value := "0",
    Data := "0x095ea7b30000000000000000000000004d97dcd97ec945f40cf65f87097ace5ea0476045ffffffffffffffffffffffffffffffffffffffffffffffffffffffffffffffff",
    Operation := 0 }

/-- The canonical reference call data for that batch, from the repository
test data: selector, offset 32, length 0x132, 306 content bytes, then 14
zero bytes padding the parameter block after the selector to a 32-byte
boundary (388 bytes in total). -/
def c4ReferenceData : String := "0x8d80ff0a00000000000000000000000000000000000000000000000000000000000000200000000000000000000000000000000000000000000000000000000000000132002791bca1f2de4661ed88a30c99a7a9449aa8417400000000000000000000000000000000000000000000000000000000000000000000000000000000000000000000000000000000000000000000000000000044095ea7b30000000000000000000000004d97dcd97ec945f40cf65f87097ace5ea0476045ffffffffffffffffffffffffffffffffffffffffffffffffffffffffffffffff002791bca1f2de4661ed88a30c99a7a9449aa8417400000000000000000000000000000000000000000000000000000000000000000000000000000000000000000000000000000000000000000000000000000044095ea7b30000000000000000000000004d97dcd97ec945f40cf65f87097ace5ea0476045ffffffffffffffffffffffffffffffffffffffffffffffffffffffffffffffff0000000000000000000000000000"

/-- The call data the embedded wrapper actually produces on that batch:
the reference vector short of its last four zero bytes. -/
def c4ProducedData : String := "0x8d80ff0a00000000000000000000000000000000000000000000000000000000000000200000000000000000000000000000000000000000000000000000000000000132002791bca1f2de4661ed88a30c99a7a9449aa8417400000000000000000000000000000000000000000000000000000000000000000000000000000000000000000000000000000000000000000000000000000044095ea7b30000000000000000000000004d97dcd97ec945f40cf65f87097ace5ea0476045ffffffffffffffffffffffffffffffffffffffffffffffffffffffffffffffff002791bca1f2de4661ed88a30c99a7a9449aa8417400000000000000000000000000000000000000000000000000000000000000000000000000000000000000000000000000000000000000000000000000000044095ea7b30000000000000000000000004d97dcd97ec945f40cf65f87097ace5ea0476045ffffffffffffffffffffffffffffffffffffffffffffffffffffffffffffffff00000000000000000000"

set_option maxRecDepth 200000 in
/-- C4 (code bug): on the repository's own reference batch the wrapper
produces the right target, operation, value, selector, offset and length,
but pads the call data measured from the start of the selector, emitting
10 zero bytes (384 bytes in total) where the reference vector carries 14
(388): the produced data is the reference minus four padding bytes. -/
theorem c4_wrapper_padding_code_bug :
    CreateSafeMultisendTransaction [c4ApproveCall, c4ApproveCall]
        "0xA238CBeb142c10Ef7Ad8442C6D1f9E89e07e7761" =
      .ok { To := "0xA238CBeb142c10Ef7Ad8442C6D1f9E89e07e7761", Value := "0",
            Data := c4ProducedData, Operation := 1 }
    ∧ (goFromHex c4ProducedData).length = 384
    ∧ (goFromHex c4ReferenceData).length = 388
    ∧ c4ProducedData ++ "00000000" = c4ReferenceData
    ∧ c4ProducedData ≠ c4ReferenceData := by
  decide

/-! ## C1: the recovery-byte remapping in signature packing -/

/-- The v mapping SplitSignature actually implements, written as a flat
case split (the source's inner normalization branch for 27 at most v at
most 28 is unreachable). -/
def splitVAdjust (v0 : Nat) : Nat :=
  if v0 = 27 ∨ v0 = 0 then 31
  else if v0 = 28 ∨ v0 = 1 then 32
  else if v0 < 27 then v0 + 31
  else v0

/-- C1 (amended): for every 65-byte signature, SplitSignature returns the
r and s words and the remapped v with no error for every input recovery
byte: 0 and 27 become 31, 1 and 28 become 32, any other byte below 27 is
silently shifted by 31 (landing outside the 31-32 range), and bytes of 29
and above pass through unchanged; SplitAndPackSig then packs r ++ s ++
that v, so the packed v can lie outside the 31-32 range with no
UnexpectedRecoveryIdError raised. -/
theorem c1_split_v_mapping (sig : Bytes) (h65 : sig.length = 65)
    (hb : ∀ b ∈ sig, b < 256) :
    SplitSignature (hexutilEncode sig) =
      .ok (hexutilEncode (sig.take 32), hexutilEncode ((sig.drop 32).take 32),
        splitVAdjust (sig.getD 64 0))
    ∧ SplitAndPackSig (hexutilEncode sig) =
      .ok (hexutilEncode (sig.take 64 ++ [splitVAdjust (sig.getD 64 0) % 256])) := by
  have hdecode : hexutilDecode ("0x" ++ goTrimHexTag (hexutilEncode sig)) = .ok sig := by
    have htrim : goTrimHexTag (hexutilEncode sig) = ⟨hexOfBytes sig⟩ := by
      simp [goTrimHexTag, hexutilEncode]
    rw [htrim]
    have hdata : ("0x" ++ (⟨hexOfBytes sig⟩ : String)).data = '0' :: 'x' :: hexOfBytes sig := by
      simp [String.data_append]
    simp only [hexutilDecode, hdata]
    rw [hexPairsDecode_hexOfBytes sig hb]
  have hsplit : SplitSignature (hexutilEncode sig) =
      .ok (hexutilEncode (sig.take 32), hexutilEncode ((sig.drop 32).take 32),
        splitVAdjust (sig.getD 64 0)) := by
    simp only [SplitSignature]
    rw [hdecode]
    simp only [h65]
    simp only [if_neg (by omega : ¬ (65 ≠ 65))]
    have hv : (if sig.getD 64 0 = 27 ∨ sig.getD 64 0 = 0 then 31
        else if sig.getD 64 0 = 28 ∨ sig.getD 64 0 = 1 then 32
        else if sig.getD 64 0 ≠ 31 ∧ sig.getD 64 0 ≠ 32 then
          (if sig.getD 64 0 < 27 then sig.getD 64 0 + 31
           else if 27 ≤ sig.getD 64 0 ∧ sig.getD 64 0 ≤ 28 then sig.getD 64 0 - 27 + 31
           else sig.getD 64 0)
        else sig.getD 64 0) = splitVAdjust (sig.getD 64 0) := by
      unfold splitVAdjust
      split_ifs <;> omega
    rw [hv]
  refine ⟨hsplit, ?_⟩
  simp only [SplitAndPackSig]
  rw [hsplit]
  dsimp only
  have hr : hexutilDecode (hexutilEncode (sig.take 32)) = .ok (sig.take 32) :=
    hexutilDecode_hexutilEncode _ (fun x hx => hb x (List.take_subset _ _ hx))
  have hs : hexutilDecode (hexutilEncode ((sig.drop 32).take 32)) =
      .ok ((sig.drop 32).take 32) :=
    hexutilDecode_hexutilEncode _
      (fun x hx => hb x (List.drop_subset _ _ (List.take_subset _ _ hx)))
  rw [hr, hs]
  have hlr : (sig.take 32).length = 32 := by
    rw [List.length_take]
    omega
  have hls : ((sig.drop 32).take 32).length = 32 := by
    rw [List.length_take, List.length_drop]
    omega
  have hcr : copyInto 32 (sig.take 32) = sig.take 32 := by
    unfold copyInto
    rw [hlr]
    simp [List.take_take]
  have hcs : copyInto 32 ((sig.drop 32).take 32) = (sig.drop 32).take 32 := by
    unfold copyInto
    rw [hls]
    simp [List.take_take]
  dsimp only
  rw [hcr, hcs]
  have hjoin : sig.take 32 ++ (sig.drop 32).take 32 = sig.take 64 := by
    have := List.take_add sig 32 32
    simp at this
    exact this.symm
  rw [List.append_assoc, ← List.append_assoc (sig.take 32), hjoin]

def c1sig : String := "0x0000000000000000000000000000000000000000000000000000000000000000000000000000000000000000000000000000000000000000000000000000000002"

/-- Counterexample to C1 as stated: the 65-byte signature with recovery
byte 2 is accepted with no error and its packed v is 33, outside the
31-32 range, where the claim requires a hard UnexpectedRecoveryIdError. -/
theorem c1_counterexample :
    SplitSignature c1sig =
      .ok ("0x0000000000000000000000000000000000000000000000000000000000000000",
           "0x0000000000000000000000000000000000000000000000000000000000000000", 33)
    ∧ SplitAndPackSig c1sig =
      .ok "0x0000000000000000000000000000000000000000000000000000000000000000000000000000000000000000000000000000000000000000000000000000000021"
    ∧ 33 ≠ 31 ∧ 33 ≠ 32 := by
  decide

def c1wsig : Bytes := List.replicate 32 3 ++ List.replicate 32 4 ++ [1]

/-- Witness for C1 (amended) at a concrete signature with raw recovery
byte 1 (remapped to 32). -/
theorem c1_split_v_mapping_witness :
    (c1wsig.length = 65 ∧ ∀ b ∈ c1wsig, b < 256)
    ∧ (SplitSignature (hexutilEncode c1wsig) =
        .ok (hexutilEncode (c1wsig.take 32), hexutilEncode ((c1wsig.drop 32).take 32),
          splitVAdjust (c1wsig.getD 64 0))
      ∧ SplitAndPackSig (hexutilEncode c1wsig) =
        .ok (hexutilEncode (c1wsig.take 64 ++ [splitVAdjust (c1wsig.getD 64 0) % 256]))) :=
  ⟨⟨by decide, by decide⟩, c1_split_v_mapping c1wsig (by decide) (by decide)⟩

/-! ## C3: the nonce carried by wallet-creation requests -/

/-- C3 (amended): every creation request
BuildSafeCreateTransactionRequest succeeds in building carries exactly the
nonce string of its arguments, and the arguments Deploy builds carry the
nonce fetched from the relayer - the library never pins the creation
nonce to the constant 0. -/
theorem c3_create_nonce_passthrough (signerConfigured : Bool) (signerAddressHex : String)
    (createSignature : Except GoError String) (args : SafeCreateTransactionArgs)
    (chainID : Int) (safeAddress fetchedNonce : String) :
    (match BuildSafeCreateTransactionRequest signerConfigured signerAddressHex
        createSignature (some args) chainID with
      | .ok req => req.Nonce = args.Nonce
      | .error _ => True)
    ∧ (deployCreateArgs signerAddressHex safeAddress fetchedNonce).Nonce = fetchedNonce := by
  refine ⟨?_, rfl⟩
  simp only [BuildSafeCreateTransactionRequest]
  cases signerConfigured
  · simp
  · simp only [Bool.not_true, Bool.false_eq_true, if_false]
    cases GetContractConfig chainID
    · simp
    · cases createSignature
      · simp
      · rename_i cfg sigStr
        cases hpack : SplitAndPackSig sigStr
        · simp [hpack]
        · simp [hpack]

def c3packableSig : String := "0x1111111111111111111111111111111111111111111111111111111111111111222222222222222222222222222222222222222222222222222222222222222201"

/-- Counterexample to C3 as stated: with the fetched nonce 7 (as Deploy
fetches it from GetNonce), the built creation request carries nonce 7,
not 0. -/
theorem c3_counterexample :
    (BuildSafeCreateTransactionRequest true "0xf39Fd6e51aad88F6F4ce6aB8827279cffFb92266"
        (.ok c3packableSig)
        (some (deployCreateArgs "0xf39Fd6e51aad88F6F4ce6aB8827279cffFb92266"
          "0x0000000000000000000000000000000000000001" "7")) 137).map
      (fun req => req.Nonce) = .ok "7"
    ∧ ("7" : String) ≠ "0" := by
  constructor
  · decide
  · decide

/-! ## C7: deterministic wallet-address derivation -/

/-- C7: DeriveSafeAddress fails with the unsupported-chain error for every
chain id outside the registry, and on a registered chain returns the last
20 bytes of keccak256 of 0xff ++ factory ++ keccak256(left-pad-32 owner)
++ the fixed init-code-hash constant, never recomputing that hash from
bytecode. -/
theorem c7_derive_safe_address (signerAddress : Bytes) (chainID : Int) :
    ((chainID ≠ 137 ∧ chainID ≠ 80002) →
      DeriveSafeAddress signerAddress chainID = .error (.invalidChainID chainID))
    ∧ (∀ cfg, GetContractConfig chainID = .ok cfg →
      DeriveSafeAddress signerAddress chainID =
        .ok ((keccak256 (0xff :: hexToAddress cfg.SafeFactory
          ++ keccak256 (leftPadBytes signerAddress 32)
          ++ hexToHash SAFE_INIT_CODE_HASH)).drop 12)) := by
  constructor
  · intro h
    simp only [DeriveSafeAddress, GetContractConfig]
    rw [if_neg h.2, if_neg h.1]
  · intro cfg hcfg
    simp only [DeriveSafeAddress]
    rw [hcfg]
    dsimp only
    have hlen : ((keccak256 (0xff :: hexToAddress cfg.SafeFactory
        ++ keccak256 (leftPadBytes signerAddress 32)
        ++ hexToHash SAFE_INIT_CODE_HASH)).drop 12).length = 20 := by
      rw [List.length_drop, keccak256_length]
    rw [bytesToAddress_of_len20 _ hlen]

/-- Witness for C7: chain 1 is rejected, chain 137 derives by the CREATE2
formula for the zero owner. -/
theorem c7_derive_safe_address_witness :
    DeriveSafeAddress zeroAddress20 1 = .error (.invalidChainID 1)
    ∧ DeriveSafeAddress zeroAddress20 137 =
      .ok ((keccak256 (0xff :: hexToAddress polygonMainnetConfig.SafeFactory
        ++ keccak256 (leftPadBytes zeroAddress20 32)
        ++ hexToHash SAFE_INIT_CODE_HASH)).drop 12) :=
  ⟨(c7_derive_safe_address zeroAddress20 1).1 (by decide),
   (c7_derive_safe_address zeroAddress20 137).2 polygonMainnetConfig (by decide)⟩

/-! ## C8: optional domain fields versus strict struct fields -/

theorem encodeFieldsF_absent (encVal : String → GoValue → Except GoError Bytes)
    (fields : List EIP712Type) (dataMap : List (String × GoValue)) (f : EIP712Type)
    (hf : f ∈ fields) (habs : (lookupAssoc dataMap f.Name).isNone = true) :
    ∃ e, encodeFieldsF encVal fields dataMap = .error e := by
  induction fields with
  | nil => cases hf
  | cons g rest ih =>
    cases hlk : lookupAssoc dataMap g.Name with
    | none =>
      exact ⟨.relayerClientError ("field " ++ g.Name ++ " not found in data"),
        by simp [encodeFieldsF, hlk]⟩
    | some v =>
      have hfr : f ∈ rest := by
        cases List.mem_cons.mp hf with
        | inl heq =>
          subst heq
          rw [hlk] at habs
          simp at habs
        | inr h => exact h
      cases henc : encVal g.Ty v with
      | error e => exact ⟨e, by simp [encodeFieldsF, hlk, henc]⟩
      | ok enc =>
        obtain ⟨e, he⟩ := ih hfr
        exact ⟨e, by simp [encodeFieldsF, hlk, henc, he]⟩

theorem hashDomainFields_filter (types : List (String × List EIP712Type)) (fuel : Nat)
    (fields : List EIP712Type) (domainMap : List (String × GoValue)) :
    hashDomainFields types fuel fields domainMap =
      encodeFieldsF (encodeValueF types (hashStruct types fuel))
        (fields.filter (fun f => (lookupAssoc domainMap f.Name).isSome)) domainMap := by
  induction fields with
  | nil => rfl
  | cons f rest ih =>
    cases hlk : lookupAssoc domainMap f.Name with
    | none => simp [hashDomainFields, encodeFieldsF, List.filter_cons, hlk, ih]
    | some v => simp [hashDomainFields, encodeFieldsF, List.filter_cons, hlk, ih]

/-- C8: a domain field declared in the domain type but absent from the
supplied domain value is silently skipped by hashDomain (equal to strict
encoding of the present-field sublist), while hashStruct on the primary
type fails whenever any declared field is absent from the message
record. -/
theorem c8_domain_optional_struct_strict (types : List (String × List EIP712Type))
    (fuel : Nat) (primaryType : String) (typeFields : List EIP712Type)
    (f : EIP712Type) (data : List (String × GoValue)) (domain : EIP712Domain) :
    (lookupAssoc types primaryType = some typeFields → f ∈ typeFields →
      (lookupAssoc data f.Name).isNone = true →
      ∃ e, hashStruct types (fuel+1) primaryType (.record data) = .error e)
    ∧ hashDomain types fuel domain =
      (match encodeFieldsF (encodeValueF types (hashStruct types fuel))
          (((lookupAssoc types "EIP712Domain").getD defaultDomainTypes).filter
            (fun fld => (lookupAssoc (structToMap domain) fld.Name).isSome))
          (structToMap domain) with
        | .error e => .error e
        | .ok enc => .ok (keccak256 (hashType "EIP712Domain"
            ((lookupAssoc types "EIP712Domain").getD defaultDomainTypes) ++ enc))) := by
  constructor
  · intro hlk hf habs
    obtain ⟨e, he⟩ := encodeFieldsF_absent
      (encodeValueF types (hashStruct types fuel)) typeFields data f hf habs
    refine ⟨e, ?_⟩
    simp only [hashStruct, hlk]
    simp only [encodeDataF, hlk, toMap, he]
  · simp only [hashDomain]
    rw [hashDomainFields_filter]

def c8types : List (String × List EIP712Type) :=
  [("EIP712Domain", [⟨"verifyingContract", "address"⟩]),
   ("Mail", [⟨"from", "address"⟩, ⟨"to", "address"⟩])]

def c8data : List (String × GoValue) := [("from", GoValue.addr zeroAddress20)]

def c8domain : EIP712Domain :=
  { Name := "", Version := "", ChainId := none,
    VerifyingContract := List.replicate 20 1, Salt := none }

/-- Witness for C8: a Mail message missing its declared to field makes
hashStruct fail, while a domain carrying only verifyingContract hashes by
encoding exactly its present fields. -/
theorem c8_domain_optional_struct_strict_witness :
    (lookupAssoc c8types "Mail" = some [⟨"from", "address"⟩, ⟨"to", "address"⟩]
      ∧ (⟨"to", "address"⟩ : EIP712Type) ∈
          [(⟨"from", "address"⟩ : EIP712Type), ⟨"to", "address"⟩]
      ∧ (lookupAssoc c8data (⟨"to", "address"⟩ : EIP712Type).Name).isNone = true)
    ∧ (∃ e, hashStruct c8types 3 "Mail" (.record c8data) = .error e)
    ∧ hashDomain c8types 2 c8domain =
      (match encodeFieldsF (encodeValueF c8types (hashStruct c8types 2))
          (((lookupAssoc c8types "EIP712Domain").getD defaultDomainTypes).filter
            (fun fld => (lookupAssoc (structToMap c8domain) fld.Name).isSome))
          (structToMap c8domain) with
        | .error e => .error e
        | .ok enc => .ok (keccak256 (hashType "EIP712Domain"
            ((lookupAssoc c8types "EIP712Domain").getD defaultDomainTypes) ++ enc))) :=
  ⟨⟨by decide, by decide, by decide⟩,
   (c8_domain_optional_struct_strict c8types 2 "Mail"
      [⟨"from", "address"⟩, ⟨"to", "address"⟩] ⟨"to", "address"⟩ c8data c8domain).1
     (by decide) (by decide) (by decide),
   (c8_domain_optional_struct_strict c8types 2 "Mail"
      [⟨"from", "address"⟩, ⟨"to", "address"⟩] ⟨"to", "address"⟩ c8data c8domain).2⟩

/-! ## Lemmas on the big-endian number encoding and the byte reader -/

theorem bigFromBytesBE_zeros (k : Nat) (bs : Bytes) :
    bigFromBytesBE (List.replicate k 0 ++ bs) = bigFromBytesBE bs := by
  induction k with
  | zero => rfl
  | succ m ih =>
    simp only [List.replicate_succ, List.cons_append]
    simpa [bigFromBytesBE] using ih

theorem natToBytesBE_value (fuel n : Nat) (h : n ≤ fuel) :
    bigFromBytesBE (natToBytesBE fuel n) = n := by
  induction fuel generalizing n with
  | zero =>
    interval_cases n
    rfl
  | succ f ih =>
    cases n with
    | zero => rfl
    | succ m =>
      have hdivlt : (m+1) / 256 < m+1 := Nat.div_lt_self (by omega) (by omega)
      have hih := ih ((m+1) / 256) (by omega)
      simp only [natToBytesBE, bigFromBytesBE, List.foldl_append, List.foldl_cons,
        List.foldl_nil]
      simp only [bigFromBytesBE] at hih
      rw [hih]
      rw [Nat.mul_comm]
      exact Nat.div_add_mod (m+1) 256

theorem bigFromBytesBE_bigIntBytes (n : Nat) :
    bigFromBytesBE (bigIntBytes n) = n :=
  natToBytesBE_value n n (Nat.le_refl n)

theorem fillBytes32_value (n : Nat) : bigFromBytesBE (fillBytes32 n) = n := by
  unfold fillBytes32
  rw [bigFromBytesBE_zeros, bigFromBytesBE_bigIntBytes]

theorem natToBytesBE_length (fuel n k : Nat) (hf : n ≤ fuel) (h : n < 256 ^ k) :
    (natToBytesBE fuel n).length ≤ k := by
  induction fuel generalizing n k with
  | zero =>
    interval_cases n
    simp [natToBytesBE]
  | succ f ih =>
    cases n with
    | zero => simp [natToBytesBE]
    | succ m =>
      simp only [natToBytesBE, List.length_append, List.length_cons, List.length_nil]
      have hk : 1 ≤ k := by
        by_contra hc
        push_neg at hc
        interval_cases k
        omega
      have hdiv : (m+1) / 256 < 256 ^ (k - 1) := by
        rw [Nat.div_lt_iff_lt_mul (by omega)]
        calc m + 1 < 256 ^ k := h
        _ = 256 ^ (k - 1) * 256 := by
          rw [← Nat.pow_succ]
          congr 1
          omega
      have := ih ((m+1) / 256) (k-1) (by omega) hdiv
      omega

theorem bigIntBytes_length (n k : Nat) (h : n < 256 ^ k) :
    (bigIntBytes n).length ≤ k :=
  natToBytesBE_length n n k (Nat.le_refl n) h

theorem pow256_32 : (256 : Nat) ^ 32 = 2 ^ 256 := by norm_num

theorem fillBytes32_length (n : Nat) (h : n < 2 ^ 256) :
    (fillBytes32 n).length = 32 := by
  unfold fillBytes32
  have := bigIntBytes_length n 32 (by rw [pow256_32]; exact h)
  simp only [List.length_append, List.length_replicate]
  omega

theorem readerRead_one (msg : String) (b : Nat) (rest : Bytes) :
    readerRead 1 msg (b :: rest) = .ok ([b], rest) := by
  simp [readerRead]

theorem readerRead_exact (k : Nat) (msg : String) (pre post : Bytes)
    (hk : 0 < k) (h : pre.length = k) :
    readerRead k msg (pre ++ post) = .ok (pre, post) := by
  unfold readerRead
  have hne : (pre ++ post).isEmpty = false := by
    cases pre with
    | nil => simp at h; omega
    | cons a l => rfl
  rw [hne]
  simp only [Bool.false_eq_true, if_false]
  rw [← h, List.take_left, List.drop_left]
  have hz : pre.length - (pre ++ post).length = 0 := by
    simp [List.length_append]
  rw [hz]
  simp

theorem readerRead_shortfall (k : Nat) (msg : String) (rem : Bytes)
    (hne : rem ≠ []) (h : rem.length ≤ k) :
    readerRead k msg rem = .ok (rem ++ List.replicate (k - rem.length) 0, []) := by
  unfold readerRead
  have hemp : rem.isEmpty = false := by
    cases rem with
    | nil => exact absurd rfl hne
    | cons a l => rfl
  rw [hemp]
  simp only [Bool.false_eq_true, if_false]
  rw [List.take_of_length_le h, List.drop_eq_nil_of_le h]

theorem goInt64OfNat_small (n : Nat) (h : n < 2 ^ 63) :
    goInt64OfNat n = (n : Int) := by
  unfold goInt64OfNat U64
  rw [Nat.mod_eq_of_lt (by omega)]
  rw [if_pos h]

/-! ## C5: decoding truncated multisend data -/

/-- C5 (amended): for a multisend entry declaring n data bytes (0 < n,
n below 2 to the 63) followed by fewer than n data bytes, decoding fails
only when the buffer ends exactly at the data field: with zero data bytes
available the read starts at an exhausted reader and errors, but with at
least one byte available the short read is accepted silently and the
decoder returns a call whose data is the available bytes zero-filled to
the declared length - a call list constructed from a short read. -/
theorem c5_truncated_decode (op : Nat) (toB valB shortData : Bytes) (n : Nat)
    (hto : toB.length = 20) (hval : valB.length = 32) (hn : 0 < n)
    (hlt : shortData.length < n) (hn63 : n < 2 ^ 63) :
    (shortData = [] →
      DecodeMultiSendData (op :: (toB ++ (valB ++ (fillBytes32 n ++ shortData)))) =
        .error (.relayerClientError "failed to read data"))
    ∧ (shortData ≠ [] →
      DecodeMultiSendData (op :: (toB ++ (valB ++ (fillBytes32 n ++ shortData)))) =
        .ok [{ To := addressHexChecksum toB,
               Value := natToDecStr (bigFromBytesBE valB),
               Data := hexutilEncode (shortData ++ List.replicate (n - shortData.length) 0),
               Operation := (op : Int) }]) := by
  have hfl : (fillBytes32 n).length = 32 := fillBytes32_length n (by
    have : (2:Nat) ^ 63 < 2 ^ 256 := by norm_num
    omega)
  have hlen : (op :: (toB ++ (valB ++ (fillBytes32 n ++ shortData)))).length =
      85 + shortData.length := by
    simp [List.length_append, hto, hval, hfl]
    omega
  have hsucc : 85 + shortData.length = (84 + shortData.length) + 1 := by omega
  have hred : decodeMultiSendLoop ((84 + shortData.length) + 1)
        (op :: (toB ++ (valB ++ (fillBytes32 n ++ shortData)))) =
      match readerRead n "failed to read data" shortData with
      | .error e => .error e
      | .ok (txnData, rem5) =>
        match decodeMultiSendLoop (84 + shortData.length) rem5 with
        | .error e => .error e
        | .ok rest =>
          .ok ({ To := addressHexChecksum (bytesToAddress toB),
                 Value := natToDecStr (bigFromBytesBE valB),
                 Data := hexutilEncode txnData,
                 Operation := (([op].getD 0 0 : Nat) : Int) } :: rest) := by
    simp only [decodeMultiSendLoop]
    rw [readerRead_one]
    dsimp only
    rw [readerRead_exact 20 _ toB _ (by omega) hto]
    dsimp only
    rw [readerRead_exact 32 _ valB _ (by omega) hval]
    dsimp only
    rw [readerRead_exact 32 _ (fillBytes32 n) _ (by omega) hfl]
    dsimp only
    rw [fillBytes32_value]
    rw [if_pos hn, goInt64OfNat_small n hn63]
    rw [if_neg (by omega)]
    have htn : ((n : Int)).toNat = n := Int.toNat_natCast n
    rw [htn]
  constructor
  · intro hempty
    subst hempty
    simp only [DecodeMultiSendData, hlen]
    rw [if_neg (by omega)]
    rw [hsucc, hred]
    rw [show readerRead n "failed to read data" [] =
        .error (.relayerClientError "failed to read data") from rfl]
  · intro hne
    simp only [DecodeMultiSendData, hlen]
    rw [if_neg (by omega)]
    rw [hsucc, hred]
    rw [readerRead_shortfall n _ shortData hne (by omega)]
    dsimp only
    rw [show decodeMultiSendLoop (84 + shortData.length) [] =
        .ok ([] : List SafeTransaction) by simp [decodeMultiSendLoop]]
    rw [bytesToAddress_of_len20 toB hto]
    rfl

def c5buf : Bytes :=
  0 :: List.replicate 20 0 ++ List.replicate 32 0 ++ fillBytes32 2 ++ [0xaa]

/-- Counterexample to C5 as stated: an entry declaring 2 data bytes but
supplying only one (0xaa) decodes with no error into a call whose data is
the short read zero-filled to 0xaa00. -/
theorem c5_counterexample :
    DecodeMultiSendData c5buf =
      .ok [{ To := "0x0000000000000000000000000000000000000000",
             Value := "0", Data := "0xaa00", Operation := 0 }] := by
  decide

/-- Witness for C5 (amended): the same entry with zero available data
bytes errors, and with one available byte decodes to the zero-filled
data. -/
theorem c5_truncated_decode_witness :
    (DecodeMultiSendData
        (0 :: (List.replicate 20 0 ++ (List.replicate 32 0 ++ (fillBytes32 2 ++ [])))) =
      .error (.relayerClientError "failed to read data"))
    ∧ (DecodeMultiSendData
        (0 :: (List.replicate 20 0 ++ (List.replicate 32 0 ++ (fillBytes32 2 ++ [0xaa])))) =
      .ok [{ To := addressHexChecksum (List.replicate 20 0),
             Value := natToDecStr (bigFromBytesBE (List.replicate 32 0)),
             Data := hexutilEncode ([0xaa] ++ List.replicate (2 - ([0xaa] : Bytes).length) 0),
             Operation := ((0 : Nat) : Int) }]) :=
  ⟨(c5_truncated_decode 0 (List.replicate 20 0) (List.replicate 32 0) [] 2
      (by decide) (by decide) (by decide) (by decide) (by decide)).1 rfl,
   (c5_truncated_decode 0 (List.replicate 20 0) (List.replicate 32 0) [0xaa] 2
      (by decide) (by decide) (by decide) (by decide) (by decide)).2 (by decide)⟩

/-! ## C6: the multisend round trip -/

/-- The preconditions under which one call encodes without an error or a
panic: its value string parses to a non-negative integer below 2 to the
256 (FillBytes would panic otherwise), its data string is empty, 0x, or
valid strict hex, and the data is short enough for the decoder's int64
length conversion. -/
def encodableTxn (txn : SafeTransaction) : Prop :=
  0 ≤ goBigFromString txn.Value ∧ goBigFromString txn.Value < (2:Int) ^ 256
  ∧ (decodeTxnData txn.Data).toOption.isSome = true
  ∧ ((decodeTxnData txn.Data).toOption.getD []).length < 2 ^ 63

instance (txn : SafeTransaction) : Decidable (encodableTxn txn) := by
  unfold encodableTxn
  infer_instance

/-- The canonical string rendering DecodeMultiSendData produces for a
call: checksummed target, decimal value, 0x lowercase-hex data and the
operation truncated to a byte. -/
def canonicalTxn (txn : SafeTransaction) : SafeTransaction :=
  { To := addressHexChecksum (hexToAddress txn.To),
    Value := natToDecStr (goBigFromString txn.Value).toNat,
    Data := hexutilEncode ((decodeTxnData txn.Data).toOption.getD []),
    Operation := txn.Operation % 256 }

theorem byteOfInt_cast (x : Int) : ((byteOfInt x : Nat) : Int) = x % 256 := by
  unfold byteOfInt
  exact Int.toNat_of_nonneg (Int.emod_nonneg x (by norm_num))

theorem hexToAddress_length (s : String) : (hexToAddress s).length = 20 :=
  bytesToAddress_length _

theorem encodeMultiSendEntry_ok (txn : SafeTransaction) (h : encodableTxn txn) :
    encodeMultiSendEntry txn =
      .ok (byteOfInt txn.Operation ::
        (hexToAddress txn.To ++ (fillBytes32 (goBigFromString txn.Value).toNat ++
          (fillBytes32 ((decodeTxnData txn.Data).toOption.getD []).length ++
            (decodeTxnData txn.Data).toOption.getD [])))) := by
  obtain ⟨h0, h256, hdok, _⟩ := h
  cases hd : decodeTxnData txn.Data with
  | error e =>
    rw [hd] at hdok
    simp [Except.toOption] at hdok
  | ok bs =>
    unfold encodeMultiSendEntry
    rw [if_neg (by push_neg; omega), hd]
    simp [Except.toOption, List.append_assoc]

theorem encodeMultiSendData_ok (txns : List SafeTransaction)
    (h : ∀ txn ∈ txns, encodableTxn txn) :
    ∃ enc, EncodeMultiSendData txns = .ok enc := by
  induction txns with
  | nil => exact ⟨[], rfl⟩
  | cons txn rest ih =>
    obtain ⟨tailEnc, htail⟩ := ih (fun t ht => h t (List.mem_cons_of_mem txn ht))
    refine ⟨byteOfInt txn.Operation ::
        ((hexToAddress txn.To ++ (fillBytes32 (goBigFromString txn.Value).toNat ++
          (fillBytes32 ((decodeTxnData txn.Data).toOption.getD []).length ++
            (decodeTxnData txn.Data).toOption.getD []))) ++ tailEnc), ?_⟩
    simp only [EncodeMultiSendData,
      encodeMultiSendEntry_ok txn (h txn (List.mem_cons_self txn rest)), htail]
    rfl

theorem c6_decode_loop (txns : List SafeTransaction)
    (h : ∀ txn ∈ txns, encodableTxn txn) :
    ∀ fuel enc, EncodeMultiSendData txns = .ok enc → enc.length ≤ fuel →
      decodeMultiSendLoop fuel enc = .ok (txns.map canonicalTxn) := by
  induction txns with
  | nil =>
    intro fuel enc henc hf
    simp only [EncodeMultiSendData] at henc
    cases henc
    simp [decodeMultiSendLoop]
  | cons txn rest ih =>
    intro fuel enc henc hf
    have htxn := h txn (List.mem_cons_self txn rest)
    obtain ⟨hv0, hv256, hdok, hdlen⟩ := htxn
    obtain ⟨tailEnc, htail⟩ :=
      encodeMultiSendData_ok rest (fun t ht => h t (List.mem_cons_of_mem txn ht))
    simp only [EncodeMultiSendData,
      encodeMultiSendEntry_ok txn (h txn (List.mem_cons_self txn rest)), htail] at henc
    have henc2 : enc = byteOfInt txn.Operation ::
        ((hexToAddress txn.To ++ (fillBytes32 (goBigFromString txn.Value).toNat ++
          (fillBytes32 ((decodeTxnData txn.Data).toOption.getD []).length ++
            (decodeTxnData txn.Data).toOption.getD []))) ++ tailEnc) := by
      cases henc
      rfl
    subst henc2
    have hvton : (goBigFromString txn.Value).toNat < 2 ^ 256 := by omega
    have hfl1 : (fillBytes32 (goBigFromString txn.Value).toNat).length = 32 :=
      fillBytes32_length _ hvton
    have hfl2 : (fillBytes32 ((decodeTxnData txn.Data).toOption.getD []).length).length = 32 :=
      fillBytes32_length _ (by
        have : (2:Nat) ^ 63 < 2 ^ 256 := by norm_num
        omega)
    have hlenenc : (byteOfInt txn.Operation ::
        ((hexToAddress txn.To ++ (fillBytes32 (goBigFromString txn.Value).toNat ++
          (fillBytes32 ((decodeTxnData txn.Data).toOption.getD []).length ++
            (decodeTxnData txn.Data).toOption.getD []))) ++ tailEnc)).length =
        85 + ((decodeTxnData txn.Data).toOption.getD []).length + tailEnc.length := by
      simp [List.length_append, hexToAddress_length, hfl1, hfl2]
      omega
    cases fuel with
    | zero => omega
    | succ f =>
      simp only [decodeMultiSendLoop]
      rw [show (hexToAddress txn.To ++ (fillBytes32 (goBigFromString txn.Value).toNat ++
          (fillBytes32 ((decodeTxnData txn.Data).toOption.getD []).length ++
            (decodeTxnData txn.Data).toOption.getD []))) ++ tailEnc =
        hexToAddress txn.To ++ (fillBytes32 (goBigFromString txn.Value).toNat ++
          (fillBytes32 ((decodeTxnData txn.Data).toOption.getD []).length ++
            ((decodeTxnData txn.Data).toOption.getD [] ++ tailEnc))) by
        simp [List.append_assoc]]
      rw [readerRead_one]
      dsimp only
      rw [readerRead_exact 20 _ (hexToAddress txn.To) _ (by omega) (hexToAddress_length _)]
      dsimp only
      rw [readerRead_exact 32 _ (fillBytes32 (goBigFromString txn.Value).toNat) _
        (by omega) hfl1]
      dsimp only
      rw [readerRead_exact 32 _
        (fillBytes32 ((decodeTxnData txn.Data).toOption.getD []).length) _ (by omega) hfl2]
      dsimp only
      rw [fillBytes32_value]
      have hstep : (if 0 < ((decodeTxnData txn.Data).toOption.getD []).length then
          if goInt64OfNat ((decodeTxnData txn.Data).toOption.getD []).length < 0 then
            Except.error (GoError.goPanic "makeslice: len out of range")
          else readerRead
            (goInt64OfNat ((decodeTxnData txn.Data).toOption.getD []).length).toNat
            "failed to read data"
            ((decodeTxnData txn.Data).toOption.getD [] ++ tailEnc)
        else .ok ([], (decodeTxnData txn.Data).toOption.getD [] ++ tailEnc)) =
          .ok ((decodeTxnData txn.Data).toOption.getD [], tailEnc) := by
        cases hnz : ((decodeTxnData txn.Data).toOption.getD []).length with
        | zero =>
          rw [if_neg (by omega)]
          have hnil : (decodeTxnData txn.Data).toOption.getD [] = [] :=
            List.eq_nil_of_length_eq_zero hnz
          rw [hnil]
          simp
        | succ m =>
          rw [if_pos (by omega)]
          rw [goInt64OfNat_small _ (by omega)]
          rw [if_neg (by omega)]
          rw [Int.toNat_natCast]
          rw [← hnz]
          exact readerRead_exact _ _ _ _ (by omega) rfl
      rw [hstep]
      dsimp only
      rw [ih (fun t ht => h t (List.mem_cons_of_mem txn ht)) f tailEnc htail (by omega)]
      dsimp only
      rw [bytesToAddress_of_len20 _ (hexToAddress_length _), fillBytes32_value]
      simp [canonicalTxn, List.getD, byteOfInt_cast]

/-- C6 (amended): for every non-empty list of encodable calls, decoding
the multisend encoding returns the canonical rendering of each call:
checksummed target, decimal value string, 0x-hex data and the operation
byte.  Round-trip equality with the input list holds exactly when every
call is already in that canonical form (the counterexample shows a
non-canonical call for which it fails). -/
theorem c6_roundtrip_canonical (txns : List SafeTransaction) (hne : txns ≠ [])
    (h : ∀ txn ∈ txns, encodableTxn txn) :
    ∃ enc, EncodeMultiSendData txns = .ok enc
      ∧ DecodeMultiSendData enc = .ok (txns.map canonicalTxn) := by
  obtain ⟨enc, henc⟩ := encodeMultiSendData_ok txns h
  refine ⟨enc, henc, ?_⟩
  have hencne : enc ≠ [] := by
    cases txns with
    | nil => exact absurd rfl hne
    | cons txn rest =>
      obtain ⟨tailEnc, htail⟩ :=
        encodeMultiSendData_ok rest (fun t ht => h t (List.mem_cons_of_mem txn ht))
      simp only [EncodeMultiSendData,
        encodeMultiSendEntry_ok txn (h txn (List.mem_cons_self txn rest)), htail] at henc
      cases henc
      simp
  unfold DecodeMultiSendData
  rw [if_neg (by
    intro hc
    exact hencne (List.eq_nil_of_length_eq_zero hc))]
  exact c6_decode_loop txns h enc.length enc henc (Nat.le_refl _)

def c6call : SafeTransaction :=
  { To := "0x1111111111111111111111111111111111111111", Value := "", Data := "",
    Operation := 0 }

set_option maxRecDepth 1000000 in
/-- Counterexample to C6 as stated: for the singleton batch with empty
value and data strings, decode of encode returns value 0 and data 0x, not
the original empty strings, so decode(encode(calls)) differs from calls. -/
theorem c6_counterexample :
    (EncodeMultiSendData [c6call]).isOk = true
    ∧ DecodeMultiSendData ((EncodeMultiSendData [c6call]).toOption.getD []) =
      .ok [{ To := "0x1111111111111111111111111111111111111111", Value := "0",
             Data := "0x", Operation := 0 }]
    ∧ DecodeMultiSendData ((EncodeMultiSendData [c6call]).toOption.getD []) ≠
      .ok [c6call] := by
  refine ⟨by decide, by decide, ?_⟩
  intro hc
  rw [show DecodeMultiSendData ((EncodeMultiSendData [c6call]).toOption.getD []) =
    .ok [{ To := "0x1111111111111111111111111111111111111111", Value := "0",
           Data := "0x", Operation := 0 }] by decide] at hc
  simp [c6call] at hc

set_option maxRecDepth 1000000 in
/-- Witness for C6 (amended) at the singleton batch. -/
theorem c6_roundtrip_canonical_witness :
    (([c6call] : List SafeTransaction) ≠ [] ∧ ∀ txn ∈ [c6call], encodableTxn txn)
    ∧ (∃ enc, EncodeMultiSendData [c6call] = .ok enc
      ∧ DecodeMultiSendData enc = .ok ([c6call].map canonicalTxn)) :=
  ⟨⟨by decide, by decide⟩, c6_roundtrip_canonical [c6call] (by decide) (by decide)⟩

end Relayer
